import Mathlib

/-!
Verification development for the noise-c sample programs shipped with the
repository: the echo server (`examples/echo/echo-server/echo-server.c`) and
the JSON test-vector driver (`tests/vector/test-vector.c`).

The library core (`noise_*` functions declared in `<noise/protocol.h>`) is
not part of the two source files; where a claim depends on its behaviour the
library is either modelled from the specification (clearly marked) or kept
abstract as an oracle parameter, so the theorems hold for every possible
library behaviour.  Machine integers are modelled as `Nat` with explicit
`% 256` where a C cast to `uint8_t` truncates.
-/

namespace NoiseC

/-! ### Identifier codes

Modelled from the spec: the numeric values of the `NOISE_*` constants live in
the library headers, which are not part of the two source files.  The sample
code only ever compares them for equality, so any assignment of pairwise
distinct naturals within a family is faithful. -/

def NOISE_ERROR_NONE : Nat := 0

def NOISE_ERROR_UNKNOWN_ID : Nat := 9

def NOISE_ROLE_INITIATOR : Nat := 1

def NOISE_ROLE_RESPONDER : Nat := 2

def NOISE_ACTION_WRITE_MESSAGE : Nat := 1

def NOISE_ACTION_READ_MESSAGE : Nat := 2

def NOISE_ACTION_SPLIT : Nat := 3

def NOISE_PREFIX_STANDARD : Nat := 1

def NOISE_PREFIX_PSK : Nat := 2

def NOISE_PATTERN_CATEGORY : Nat := 1

def NOISE_DH_CATEGORY : Nat := 2

def NOISE_CIPHER_CATEGORY : Nat := 3

def NOISE_HASH_CATEGORY : Nat := 4

def NOISE_DH_CURVE25519 : Nat := 1

def NOISE_DH_CURVE448 : Nat := 2

/-! ### The echo server (`examples/echo/echo-server/echo-server.c`) -/

namespace EchoServer

/-- Direction of transport traffic between the echo client (the initiator)
and the echo server (the responder).  A transport `CipherState` is
identified by the traffic direction it protects. -/
inductive Dir where
  | initToResp : Dir
  | respToInit : Dir
deriving DecidableEq

/-- Modelled from the spec: `noise_handshakestate_split` (library core, not
in the sample sources) returns the pair `(sender_to_peer, peer_to_sender)`
from the calling side's perspective; the initiator's first returned
CipherState is the initiator-to-responder direction, so the responder's
first returned CipherState is the responder-to-initiator direction. -/
def noise_handshakestate_split (role : Nat) : Dir × Dir :=
  if role = NOISE_ROLE_INITIATOR then (Dir.initToResp, Dir.respToInit)
  else (Dir.respToInit, Dir.initToResp)

/-- The two cipher variables of the echo server's `main`. -/
structure SplitCiphers where
  send_cipher : Dir
  recv_cipher : Dir
deriving DecidableEq

/-- Embeds echo-server.c line 292: the server (role `NOISE_ROLE_RESPONDER`)
calls `noise_handshakestate_split(handshake, &recv_cipher, &send_cipher)`,
passing `&recv_cipher` as the FIRST output argument and `&send_cipher` as
the second. -/
def serverSplit : SplitCiphers :=
  let out := noise_handshakestate_split NOISE_ROLE_RESPONDER
  { recv_cipher := out.1, send_cipher := out.2 }

/-- Direction of the packets the transport echo loop (echo-server.c lines
304-333) must decrypt with `recv_cipher`: they arrive from the client, the
initiator. -/
def incoming_traffic_direction : Dir := Dir.initToResp

/-- Embeds echo-server.c lines 141-149, the remote-public-key section of
`initialize_handshake`: the value the section installs into the remote DH
object, or the error it assigns to `err`.  The second guard repeats
`NOISE_DH_CURVE25519` exactly as the C source does. -/
inductive ClientKey where
  | client_key_25519 : ClientKey
  | client_key_448 : ClientKey
deriving DecidableEq

def remote_public_key_section (dh_id : Nat) : Except Nat ClientKey :=
  if dh_id = NOISE_DH_CURVE25519 then Except.ok ClientKey.client_key_25519
  else if dh_id = NOISE_DH_CURVE25519 then Except.ok ClientKey.client_key_448
  else Except.error NOISE_ERROR_UNKNOWN_ID

/-- Embeds echo-server.c lines 138-154: when
`noise_handshakestate_needs_remote_public_key` holds, run the
remote-public-key section; on `err != NOISE_ERROR_NONE` the function prints
and returns 0, otherwise it falls through towards `return 1`.  The result is
the C return value paired with the key that was installed (if any). -/
def initialize_handshake_remote (needs_remote : Bool) (dh_id : Nat) :
    Nat × Option ClientKey :=
  if needs_remote then
    match remote_public_key_section dh_id with
    | Except.ok k => (1, some k)
    | Except.error _ => (0, none)
  else (1, none)

/-- Embeds echo-server.c line 52: `#define MAX_MESSAGE_LEN 65535`. -/
def MAX_MESSAGE_LEN : Nat := 65535

/-- Embeds echo-server.c line 53: `static uint8_t message[MAX_MESSAGE_LEN + 2]`. -/
def message_buffer_size : Nat := MAX_MESSAGE_LEN + 2

/-- Embeds echo-server.c line 249: `message_size = sizeof(message) - 2` is
the output capacity handed to `noise_handshakestate_write_message`. -/
def write_message_capacity : Nat := message_buffer_size - 2

/-- Embeds the framing at echo-server.c lines 257-258 and 327-328:
`message[0] = (uint8_t)(message_size >> 8); message[1] = (uint8_t)message_size;`
followed by the body that the library wrote at `message + 2`.  The
`(uint8_t)` casts are `% 256`. -/
def frame_packet (message_size : Nat) (body : List Nat) : List Nat :=
  (message_size >>> 8) % 256 :: message_size % 256 :: body

/-- Embeds echo-server.c lines 259 and 329: `echo_send(fd, message,
message_size + 2)` transmits the prefix plus body. -/
def echo_send_length (message_size : Nat) : Nat := message_size + 2

/-- Embeds the receive path at echo-server.c lines 265-272 and 306-312:
`message_size -= 2` strips the length-field overhead and the remainder
starting at `message + 2` is handed to the handshake or cipher layer. -/
def recv_strip (packet : List Nat) : Nat × List Nat :=
  (packet.length - 2, packet.drop 2)

end EchoServer

/-! ### The test-vector driver (`tests/vector/test-vector.c`) -/

namespace TestVectorDriver

/-- One vector message (test-vector.c lines 65-70). -/
structure TestMessage where
  payload : List Nat
  ciphertext : List Nat
deriving DecidableEq

/-- The fields of the `TestVector` structure (test-vector.c lines 37-73)
that the embedded fragments consult.  A C pointer field that may be `NULL`
is an `Option`; a byte buffer with its length is a `List Nat`. -/
structure TestVector where
  name : String
  pattern : Option String
  dh : Option String
  cipher : Option String
  hash : Option String
  init_psk : Option (List Nat)
  resp_psk : Option (List Nat)
  resp_ephemeral : Option (List Nat)
  messages : List TestMessage

/-- Embeds the `compare` macro (test-vector.c lines 147-157): on mismatch it
prints and performs `longjmp(test_jump_back, 1)`; the longjmp is the
`Except.error` carrying the jump value 1. -/
def compare (actual expected : Nat) : Except Nat Unit :=
  if actual = expected then Except.ok () else Except.error 1

/-- Embeds the `verify` macro (test-vector.c lines 132-139): failing the
test via `longjmp(test_jump_back, 1)` when the condition is false. -/
def verify (condition : Prop) [Decidable condition] : Except Nat Unit :=
  if condition then Except.ok () else Except.error 1

/-- Embeds the `compare_blocks` macro (test-vector.c lines 172-183): the
test fails (longjmp value 1) when `actual_len != expected_len` or
`memcmp(actual, expected, actual_len) != 0`; with equal lengths `memcmp`
over the whole block is list equality. -/
def compare_blocks (actual expected : List Nat) : Except Nat Unit :=
  if actual.length ≠ expected.length ∨ actual ≠ expected then Except.error 1
  else Except.ok ()

/-- The `NoiseProtocolId` structure as consulted by `test_name_parsing`. -/
structure NoiseProtocolId where
  prefix_id : Nat
  pattern_id : Nat
  dh_id : Nat
  cipher_id : Nat
  hash_id : Nat
  reserved_id : Nat

/-- Oracle for the two library entry points `test_name_parsing` calls; the
library core is not part of the sources, so the driver's behaviour is
settled for every possible library behaviour.  `protocol_name_to_id`
returns the error code and the filled-in id; `id_to_name` returns `none`
for a `NULL` result. -/
structure NameLib where
  protocol_name_to_id : String → Nat × NoiseProtocolId
  id_to_name : Nat → Nat → Option String

/-- Embeds `check_id` (test-vector.c lines 192-198). -/
def check_id (id_to_name : Nat → Nat → Option String) (id category : Nat)
    (name : Option String) : Except Nat Unit := do
  let n := id_to_name category id
  verify (name ≠ none)
  verify (n ≠ none)
  verify (name = n)

/-- Embeds `test_name_parsing` (test-vector.c lines 205-219). -/
def test_name_parsing (lib : NameLib) (vec : TestVector) : Except Nat Unit := do
  let r := lib.protocol_name_to_id vec.name
  compare r.1 NOISE_ERROR_NONE
  if vec.init_psk.isSome ∨ vec.resp_psk.isSome then
    compare r.2.prefix_id NOISE_PREFIX_PSK
  else
    compare r.2.prefix_id NOISE_PREFIX_STANDARD
  check_id lib.id_to_name r.2.pattern_id NOISE_PATTERN_CATEGORY vec.pattern
  check_id lib.id_to_name r.2.dh_id NOISE_DH_CATEGORY vec.dh
  check_id lib.id_to_name r.2.cipher_id NOISE_CIPHER_CATEGORY vec.cipher
  check_id lib.id_to_name r.2.hash_id NOISE_HASH_CATEGORY vec.hash
  compare r.2.reserved_id 0

/-- Embeds the condition at test-vector.c line 281:
`if (vec->resp_ephemeral && strlen(vec->pattern) != 1)` guards the
installation of the fixed responder ephemeral key.  Pattern names are
ASCII, so `strlen` is the string length. -/
def resp_ephemeral_installed (resp_ephemeral : Option (List Nat))
    (pattern : String) : Bool :=
  resp_ephemeral.isSome && decide (pattern.length ≠ 1)

/-- Oracle for the handshake-state entry points `test_connection` calls on
its two sides.  `σ` is the library's opaque state;  `write_message` and
`read_message` return the error code, the successor state, and the bytes
produced (the written message, respectively the decrypted payload). -/
structure HandshakeLib (σ : Type) where
  get_action : σ → Nat
  write_message : σ → List Nat → Nat × σ × List Nat
  read_message : σ → List Nat → Nat × σ × List Nat

/-- Embeds test-vector.c lines 337-352, the per-message body of the
`test_connection` loop after the two action checks: write on `send`,
compare the produced ciphertext against the vector, read it back on
`recv`, compare the recovered payload against the vector.  Returns the
successor states of `(send, recv)`. -/
def message_exchange {σ : Type} (L : HandshakeLib σ) (send recv : σ)
    (m : TestMessage) : Except Nat (σ × σ) := do
  let w := L.write_message send m.payload
  compare w.1 NOISE_ERROR_NONE
  compare_blocks w.2.2 m.ciphertext
  let r := L.read_message recv w.2.2
  compare r.1 NOISE_ERROR_NONE
  compare_blocks r.2.2 m.payload
  Except.ok (w.2.1, r.2.1)

/-- Embeds test-vector.c lines 333-352: the two `get_action` checks that
precede every exchange, then the exchange itself. -/
def exchange_step {σ : Type} (L : HandshakeLib σ) (send recv : σ)
    (m : TestMessage) : Except Nat (σ × σ) := do
  compare (L.get_action send) NOISE_ACTION_WRITE_MESSAGE
  compare (L.get_action recv) NOISE_ACTION_READ_MESSAGE
  message_exchange L send recv m

/-- Embeds the loop of `test_connection` (test-vector.c lines 314-353):
`index` walks the vector messages, `role` alternates starting from
`NOISE_ROLE_INITIATOR`, and the loop breaks early when both sides report
`NOISE_ACTION_SPLIT`.  The returned list records the sender role of every
exchange actually performed. -/
def connection_loop {σ : Type} (L : HandshakeLib σ) (initiator responder : σ)
    (role : Nat) : List TestMessage → Except Nat (List Nat)
  | [] => Except.ok []
  | m :: rest =>
    if L.get_action initiator = NOISE_ACTION_SPLIT ∧
        L.get_action responder = NOISE_ACTION_SPLIT then Except.ok []
    else if role = NOISE_ROLE_INITIATOR then
      match exchange_step L initiator responder m with
      | Except.error e => Except.error e
      | Except.ok s =>
        match connection_loop L s.1 s.2 NOISE_ROLE_RESPONDER rest with
        | Except.error e => Except.error e
        | Except.ok recs => Except.ok (NOISE_ROLE_INITIATOR :: recs)
    else
      match exchange_step L responder initiator m with
      | Except.error e => Except.error e
      | Except.ok s =>
        match connection_loop L s.2 s.1 NOISE_ROLE_INITIATOR rest with
        | Except.error e => Except.error e
        | Except.ok recs => Except.ok (NOISE_ROLE_RESPONDER :: recs)

/-- The loop as entered by `test_connection`: `role = NOISE_ROLE_INITIATOR`
(test-vector.c line 315). -/
def test_connection_loop {σ : Type} (L : HandshakeLib σ)
    (initiator responder : σ) (msgs : List TestMessage) :
    Except Nat (List Nat) :=
  connection_loop L initiator responder NOISE_ROLE_INITIATOR msgs

/-- Sender chosen by the loop body for the current `role` value
(test-vector.c lines 322-332): the initiator exactly when
`role == NOISE_ROLE_INITIATOR`, else the responder. -/
def sender_of (role : Nat) : Nat :=
  if role = NOISE_ROLE_INITIATOR then NOISE_ROLE_INITIATOR
  else NOISE_ROLE_RESPONDER

/-- The `role` value after one iteration (test-vector.c lines 326 and 331). -/
def next_role (role : Nat) : Nat :=
  if role = NOISE_ROLE_INITIATOR then NOISE_ROLE_RESPONDER
  else NOISE_ROLE_INITIATOR

/-- Embeds `from_hex_digit` (test-vector.c lines 449-459).  The character
codes are those of the C literals: 48-57 for `0`-`9`, 65-70 for `A`-`F`,
97-102 for `a`-`f`. -/
def from_hex_digit (ch : Nat) : Int :=
  if 48 ≤ ch ∧ ch ≤ 57 then (ch : Int) - 48
  else if 65 ≤ ch ∧ ch ≤ 70 then (ch : Int) - 65 + 10
  else if 97 ≤ ch ∧ ch ≤ 102 then (ch : Int) - 97 + 10
  else -1

/-- Embeds the decode loop of `expect_binary_field` (test-vector.c lines
478-493): `size = strlen(...) / 2` pairs are consumed, so a trailing odd
character is never read; a pair with a non-hex character raises the JSON
error (`none`); otherwise byte `posn` is `digit1 * 16 + digit2`. -/
def expect_binary_loop : List Nat → Option (List Nat)
  | [] => some []
  | [_] => some []
  | c1 :: c2 :: rest =>
    let digit1 := from_hex_digit c1
    let digit2 := from_hex_digit c2
    if digit1 < 0 ∨ digit2 < 0 then none
    else match expect_binary_loop rest with
      | none => none
      | some bs => some ((digit1 * 16 + digit2).toNat :: bs)

/-- Embeds `expect_binary_field` (test-vector.c lines 469-499) on a string
token: the returned size and the decoded buffer; on a JSON error the
function returns 0. -/
def expect_binary_field (hex : List Nat) : Nat × Option (List Nat) :=
  match expect_binary_loop hex with
  | none => (0, none)
  | some bs => (bs.length, some bs)

/-- One parsed vector object of the input file as seen by the loop of
`process_test_vectors`; `passes` is the return value of
`process_test_vector` for it. -/
structure VectorItem where
  passes : Bool

/-- Embeds the loop of `process_test_vectors` (test-vector.c lines
621-630) on an error-free token stream holding the given vector objects:
`count` is the counter initialised to 128; `--count <= 0` (on a `Nat`,
`count - 1 = 0`) jumps to `end`, past the remaining input and past the
validation of the closing `]`/`}`/EOF tokens.  Result: number of vectors
processed, the `ok` flag, and whether the closing tokens were validated. -/
def process_vectors_loop : List VectorItem → Nat → Bool → Nat × Bool × Bool
  | [], _, ok => (0, ok, true)
  | v :: rest, count, ok =>
    let ok2 := ok && v.passes
    if count - 1 = 0 then (1, ok2, false)
    else
      let r := process_vectors_loop rest (count - 1) ok2
      (r.1 + 1, r.2.1, r.2.2)

/-- Embeds `process_test_vectors` (test-vector.c lines 611-640):
`int count = 128; int ok = 1;` then the loop. -/
def process_test_vectors (items : List VectorItem) : Nat × Bool × Bool :=
  process_vectors_loop items 128 true

/-! ### Concrete oracle instantiations, used to evaluate the driver
theorems on closed inputs. -/

/-- A handshake side whose state is `(messages processed, is initiator)`:
the initiator writes on even counts and reads on odd counts, the responder
the other way round, and both sides split after two messages;  write and
read succeed and pass the bytes through unchanged. -/
def demo_action (s : Nat × Bool) : Nat :=
  if 2 ≤ s.1 then NOISE_ACTION_SPLIT
  else if (decide (s.1 % 2 = 0)) = s.2 then NOISE_ACTION_WRITE_MESSAGE
  else NOISE_ACTION_READ_MESSAGE

def demo_lib : HandshakeLib (Nat × Bool) where
  get_action := demo_action
  write_message := fun s p => (NOISE_ERROR_NONE, (s.1 + 1, s.2), p)
  read_message := fun s msg => (NOISE_ERROR_NONE, (s.1 + 1, s.2), msg)

/-- A handshake side that always reports `NOISE_ACTION_SPLIT`. -/
def split_lib : HandshakeLib Unit where
  get_action := fun _ => NOISE_ACTION_SPLIT
  write_message := fun _ p => (NOISE_ERROR_NONE, (), p)
  read_message := fun _ msg => (NOISE_ERROR_NONE, (), msg)

/-- A name-parsing library whose id registry maps everything to `"x"`. -/
def name_lib_demo : NameLib where
  protocol_name_to_id := fun _ =>
    (NOISE_ERROR_NONE,
      { prefix_id := NOISE_PREFIX_STANDARD, pattern_id := 1, dh_id := 1,
        cipher_id := 1, hash_id := 1, reserved_id := 0 })
  id_to_name := fun _ _ => some "x"

/-- A vector whose component names are all `"x"` and that carries no PSK. -/
def vec_demo : TestVector where
  name := "Noise_x_x_x_x"
  pattern := some "x"
  dh := some "x"
  cipher := some "x"
  hash := some "x"
  init_psk := none
  resp_psk := none
  resp_ephemeral := none
  messages := []

end TestVectorDriver

/-! ## Theorems -/

namespace EchoServer

/-- C1: the library's split returns `(sender_to_peer, peer_to_sender)` from
the responder's perspective, so its first CipherState protects the
responder-to-initiator direction.  The echo server binds that first output
to `recv_cipher` and the second to `send_cipher` (echo-server.c line 292),
the opposite of what the claim requires: the transport echo loop therefore
holds in `recv_cipher` a cipher that cannot decrypt the incoming
initiator-to-responder traffic. -/
theorem claim1_split_binding_swapped :
    serverSplit.recv_cipher = (noise_handshakestate_split NOISE_ROLE_RESPONDER).1 ∧
    serverSplit.send_cipher = (noise_handshakestate_split NOISE_ROLE_RESPONDER).2 ∧
    serverSplit.recv_cipher = Dir.respToInit ∧
    serverSplit.recv_cipher ≠ incoming_traffic_direction ∧
    serverSplit.send_cipher ≠ Dir.respToInit := by
  refine ⟨rfl, rfl, rfl, ?_, ?_⟩ <;> simp [serverSplit, noise_handshakestate_split,
    incoming_traffic_direction, NOISE_ROLE_RESPONDER, NOISE_ROLE_INITIATOR]

/-- C2: the remote-public-key section of `initialize_handshake` repeats the
`NOISE_DH_CURVE25519` guard, so for `NOISE_DH_CURVE448` it sets
`err = NOISE_ERROR_UNKNOWN_ID` and the function returns 0; the Curve448
client key is never installed for any DH id. -/
theorem claim2_curve448_never_installed (needs_remote : Bool)
    (h : needs_remote = true) :
    remote_public_key_section NOISE_DH_CURVE448
      = Except.error NOISE_ERROR_UNKNOWN_ID ∧
    initialize_handshake_remote needs_remote NOISE_DH_CURVE448 = (0, none) ∧
    ∀ dh_id : Nat,
      remote_public_key_section dh_id ≠ Except.ok ClientKey.client_key_448 := by
  subst h
  refine ⟨rfl, rfl, ?_⟩
  intro dh_id hcontra
  unfold remote_public_key_section at hcontra
  by_cases hd : dh_id = NOISE_DH_CURVE25519
  · rw [if_pos hd] at hcontra
    injection hcontra with h2
    exact ClientKey.noConfusion h2
  · rw [if_neg hd, if_neg hd] at hcontra
    exact Except.noConfusion hcontra

theorem claim2_witness :
    initialize_handshake_remote true NOISE_DH_CURVE448 = (0, none) :=
  (claim2_curve448_never_installed true rfl).2.1

/-- C7: every transmitted packet is the 2-byte big-endian length prefix
followed by the body: byte 0 is `message_size >> 8`, byte 1 the low 8 bits,
`echo_send` gets `message_size + 2` bytes, the prefix decodes back to the
body length, and the receive path strips exactly the 2 prefix bytes before
handing the remainder on. -/
theorem claim7_framing (message_size : Nat) (body : List Nat)
    (hsize : message_size ≤ 65535) (hbody : body.length = message_size) :
    (frame_packet message_size body).get? 0 = some (message_size >>> 8) ∧
    (frame_packet message_size body).get? 1 = some (message_size % 256) ∧
    (frame_packet message_size body).length = echo_send_length message_size ∧
    256 * ((message_size >>> 8) % 256) + message_size % 256 = message_size ∧
    recv_strip (frame_packet message_size body) = (message_size, body) := by
  have hs : message_size >>> 8 = message_size / 256 := by
    rw [Nat.shiftRight_eq_div_pow]
  have hmod : (message_size >>> 8) % 256 = message_size >>> 8 := by
    rw [hs]; exact Nat.mod_eq_of_lt (by omega)
  refine ⟨?_, ?_, ?_, ?_, ?_⟩
  · simp [frame_packet, hmod]
  · simp [frame_packet]
  · simp [frame_packet, echo_send_length, hbody]
  · rw [hmod, hs]; omega
  · simp [recv_strip, frame_packet, hbody]

theorem claim7_witness :
    (frame_packet 3 [7, 8, 9]).get? 0 = some (3 >>> 8) ∧
    (frame_packet 3 [7, 8, 9]).get? 1 = some (3 % 256) ∧
    (frame_packet 3 [7, 8, 9]).length = echo_send_length 3 ∧
    256 * ((3 >>> 8) % 256) + 3 % 256 = 3 ∧
    recv_strip (frame_packet 3 [7, 8, 9]) = (3, [7, 8, 9]) :=
  claim7_framing 3 [7, 8, 9] (by decide) (by decide)

/-- C8: the buffer is `MAX_MESSAGE_LEN + 2` bytes with
`MAX_MESSAGE_LEN = 65535`, every `noise_handshakestate_write_message` call
gets an output capacity of exactly `sizeof(message) - 2 = 65535`, and any
framed packet is at most 65537 bytes including the prefix. -/
theorem claim8_message_bound (message_size : Nat)
    (h : message_size ≤ write_message_capacity) :
    write_message_capacity = 65535 ∧
    write_message_capacity ≤ MAX_MESSAGE_LEN ∧
    message_buffer_size = MAX_MESSAGE_LEN + 2 ∧
    echo_send_length message_size ≤ 65537 := by
  have hc : write_message_capacity = 65535 := rfl
  rw [hc] at h
  exact ⟨rfl, by decide, rfl, by unfold echo_send_length; omega⟩

theorem claim8_witness :
    write_message_capacity = 65535 ∧ echo_send_length 0 ≤ 65537 :=
  ⟨(claim8_message_bound 0 (by decide)).1,
   (claim8_message_bound 0 (by decide)).2.2.2⟩

end EchoServer

namespace TestVectorDriver

/-- C3 counterexample: with a supplied `resp_ephemeral` and the empty
pattern name, the code installs the fixed ephemeral (`strlen("") != 1`),
although the empty name is not longer than one character, so the claim's
`if and only if` fails at this input. -/
theorem claim3_counterexample :
    ¬ (resp_ephemeral_installed (some (List.replicate 56 0)) "" = true ↔
        (some (List.replicate 56 0) : Option (List Nat)).isSome = true ∧
        1 < String.length "") := by
  decide

/-- C3 amended: the fixed responder ephemeral is installed if and only if
the vector supplies `resp_ephemeral` and the pattern name's length is not
exactly one character; in particular for every one-way pattern
(single-character names `N`, `K`, `X`) the field is ignored. -/
theorem claim3_fixed_ephemeral_iff (resp_ephemeral : Option (List Nat))
    (pattern : String) :
    (resp_ephemeral_installed resp_ephemeral pattern = true ↔
      resp_ephemeral.isSome = true ∧ pattern.length ≠ 1) ∧
    (pattern.length = 1 →
      resp_ephemeral_installed resp_ephemeral pattern = false) := by
  constructor
  · simp [resp_ephemeral_installed]
  · intro h
    simp [resp_ephemeral_installed, h]

theorem claim3_witness :
    resp_ephemeral_installed (some (List.replicate 56 0)) "N" = false :=
  (claim3_fixed_ephemeral_iff (some (List.replicate 56 0)) "N").2 (by decide)

/-- With at least one count left, the loop processes `min count n` of the
`n` available vectors and validates the closing tokens exactly when fewer
than `count` vectors were available. -/
theorem process_vectors_loop_count (items : List VectorItem) :
    ∀ count ok, 1 ≤ count →
      (process_vectors_loop items count ok).1 = min count items.length ∧
      ((process_vectors_loop items count ok).2.2 = true ↔
        items.length < count) := by
  induction items with
  | nil =>
    intro count ok h
    simp only [process_vectors_loop, List.length_nil]
    constructor
    · omega
    · simp; omega
  | cons v rest ih =>
    intro count ok h
    by_cases hc : count - 1 = 0
    · have hcount : count = 1 := by omega
      subst hcount
      have key : process_vectors_loop (v :: rest) 1 ok = (1, ok && v.passes, false) := by
        simp [process_vectors_loop]
      rw [key]
      simp
    · have h1 : 1 ≤ count - 1 := by omega
      obtain ⟨ih1, ih2⟩ := ih (count - 1) (ok && v.passes) h1
      have key : process_vectors_loop (v :: rest) count ok
          = ((process_vectors_loop rest (count - 1) (ok && v.passes)).1 + 1,
             (process_vectors_loop rest (count - 1) (ok && v.passes)).2.1,
             (process_vectors_loop rest (count - 1) (ok && v.passes)).2.2) := by
        simp [process_vectors_loop, hc]
      rw [key]
      constructor
      · rw [ih1]
        simp only [List.length_cons]
        omega
      · rw [ih2]
        simp only [List.length_cons]
        omega

/-- Sequencing two unit test steps succeeds exactly when both do. -/
theorem seq_ok (a b : Except Nat Unit) :
    (a >>= fun _ => b) = Except.ok () ↔
      a = Except.ok () ∧ b = Except.ok () := by
  cases a with
  | error e => simp [Bind.bind, Except.bind]
  | ok u => cases u; simp [Bind.bind, Except.bind]

/-- A test step equal to `ok` continues with the rest of the chain. -/
theorem bind_ok_unit {β : Type} (a : Except Nat Unit) (f : Unit → Except Nat β)
    (h : a = Except.ok ()) : (a >>= f) = f () := by
  subst h; rfl

/-- A failing test step short-circuits the rest of the chain. -/
theorem bind_err {β : Type} (a : Except Nat Unit) (f : Unit → Except Nat β)
    (e : Nat) (h : a = Except.error e) : (a >>= f) = Except.error e := by
  subst h; rfl

/-- Sequencing preserves the fail-with-jump-value-1 discipline. -/
theorem seq_cases (a b : Except Nat Unit)
    (ha : a = Except.ok () ∨ a = Except.error 1)
    (hb : b = Except.ok () ∨ b = Except.error 1) :
    (a >>= fun _ => b) = Except.ok () ∨
      (a >>= fun _ => b) = Except.error 1 := by
  rcases ha with h | h
  · rw [bind_ok_unit _ _ h]; exact hb
  · right; exact bind_err _ _ 1 h

theorem compare_ok (a b : Nat) : compare a b = Except.ok () ↔ a = b := by
  unfold compare; split <;> simp_all

theorem compare_cases (a b : Nat) :
    compare a b = Except.ok () ∨ compare a b = Except.error 1 := by
  unfold compare; split <;> simp

theorem verify_ok (c : Prop) [Decidable c] :
    verify c = Except.ok () ↔ c := by
  unfold verify; split <;> simp_all

theorem verify_cases (c : Prop) [Decidable c] :
    verify c = Except.ok () ∨ verify c = Except.error 1 := by
  unfold verify; split <;> simp

theorem compare_blocks_ok (a b : List Nat) :
    compare_blocks a b = Except.ok () ↔ a = b := by
  unfold compare_blocks
  by_cases h : a = b
  · subst h; simp
  · simp [h]

theorem compare_blocks_cases (a b : List Nat) :
    compare_blocks a b = Except.ok () ∨ compare_blocks a b = Except.error 1 := by
  unfold compare_blocks; split <;> simp

/-- `check_id` passes exactly when the vector supplies the component name
and the registry maps the id back to that very name. -/
theorem check_id_ok (id_to_name : Nat → Nat → Option String)
    (id category : Nat) (name : Option String) :
    check_id id_to_name id category name = Except.ok () ↔
      (name ≠ none ∧ id_to_name category id ≠ none ∧
        name = id_to_name category id) := by
  simp only [check_id, seq_ok, verify_ok]

theorem check_id_cases (id_to_name : Nat → Nat → Option String)
    (id category : Nat) (name : Option String) :
    check_id id_to_name id category name = Except.ok () ∨
      check_id id_to_name id category name = Except.error 1 := by
  simp only [check_id]
  exact seq_cases _ _ (verify_cases _)
    (seq_cases _ _ (verify_cases _) (verify_cases _))

/-- C4: `test_name_parsing` passes exactly when the library parses the
vector's protocol name with `NOISE_ERROR_NONE`, the parsed prefix is
`NOISE_PREFIX_PSK` precisely when the vector supplies an initiator or
responder PSK and `NOISE_PREFIX_STANDARD` otherwise, each of the pattern,
DH, cipher and hash ids maps back through `noise_id_to_name` in its
category to the vector's component name, and `reserved_id` is 0; any
violation aborts the test with longjmp value 1. -/
theorem claim4_test_name_parsing (lib : NameLib) (vec : TestVector) :
    (test_name_parsing lib vec = Except.ok () ↔
      ((lib.protocol_name_to_id vec.name).1 = NOISE_ERROR_NONE ∧
       (if vec.init_psk.isSome ∨ vec.resp_psk.isSome then
          (lib.protocol_name_to_id vec.name).2.prefix_id = NOISE_PREFIX_PSK
        else
          (lib.protocol_name_to_id vec.name).2.prefix_id
            = NOISE_PREFIX_STANDARD) ∧
       (vec.pattern ≠ none ∧
        lib.id_to_name NOISE_PATTERN_CATEGORY
          (lib.protocol_name_to_id vec.name).2.pattern_id ≠ none ∧
        vec.pattern = lib.id_to_name NOISE_PATTERN_CATEGORY
          (lib.protocol_name_to_id vec.name).2.pattern_id) ∧
       (vec.dh ≠ none ∧
        lib.id_to_name NOISE_DH_CATEGORY
          (lib.protocol_name_to_id vec.name).2.dh_id ≠ none ∧
        vec.dh = lib.id_to_name NOISE_DH_CATEGORY
          (lib.protocol_name_to_id vec.name).2.dh_id) ∧
       (vec.cipher ≠ none ∧
        lib.id_to_name NOISE_CIPHER_CATEGORY
          (lib.protocol_name_to_id vec.name).2.cipher_id ≠ none ∧
        vec.cipher = lib.id_to_name NOISE_CIPHER_CATEGORY
          (lib.protocol_name_to_id vec.name).2.cipher_id) ∧
       (vec.hash ≠ none ∧
        lib.id_to_name NOISE_HASH_CATEGORY
          (lib.protocol_name_to_id vec.name).2.hash_id ≠ none ∧
        vec.hash = lib.id_to_name NOISE_HASH_CATEGORY
          (lib.protocol_name_to_id vec.name).2.hash_id) ∧
       (lib.protocol_name_to_id vec.name).2.reserved_id = 0)) ∧
    (test_name_parsing lib vec = Except.ok () ∨
      test_name_parsing lib vec = Except.error 1) := by
  constructor
  · by_cases hpsk : vec.init_psk.isSome ∨ vec.resp_psk.isSome
    · simp only [test_name_parsing, seq_ok, compare_ok, check_id_ok,
        if_pos hpsk]
    · simp only [test_name_parsing, seq_ok, compare_ok, check_id_ok,
        if_neg hpsk]
  · simp only [test_name_parsing]
    refine seq_cases _ _ (compare_cases _ _) ?_
    split <;>
      exact seq_cases _ _ (compare_cases _ _) (seq_cases _ _
        (check_id_cases _ _ _ _) (seq_cases _ _ (check_id_cases _ _ _ _)
          (seq_cases _ _ (check_id_cases _ _ _ _) (seq_cases _ _
            (check_id_cases _ _ _ _) (compare_cases _ _)))))

theorem claim4_witness :
    test_name_parsing name_lib_demo vec_demo = Except.ok () :=
  (claim4_test_name_parsing name_lib_demo vec_demo).1.mpr
    (by refine ⟨rfl, ?_, ?_, ?_, ?_, ?_, rfl⟩ <;> simp [name_lib_demo, vec_demo])

/-- When the action precondition of an exchange is violated, the step
aborts with longjmp value 1 before touching the messages. -/
theorem exchange_step_action_fail {σ : Type} (L : HandshakeLib σ)
    (send recv : σ) (m : TestMessage)
    (h : ¬(L.get_action send = NOISE_ACTION_WRITE_MESSAGE ∧
           L.get_action recv = NOISE_ACTION_READ_MESSAGE)) :
    exchange_step L send recv m = Except.error 1 := by
  unfold exchange_step
  by_cases h1 : L.get_action send = NOISE_ACTION_WRITE_MESSAGE
  · have h2 : ¬ L.get_action recv = NOISE_ACTION_READ_MESSAGE :=
      fun h2 => h ⟨h1, h2⟩
    rw [bind_ok_unit _ _ (by simp [compare, h1])]
    exact bind_err _ _ 1 (by simp [compare, h2])
  · exact bind_err _ _ 1 (by simp [compare, h1])

theorem roles_distinct : NOISE_ROLE_RESPONDER ≠ NOISE_ROLE_INITIATOR := by decide

theorem roles_distinct2 : NOISE_ROLE_INITIATOR ≠ NOISE_ROLE_RESPONDER := by decide

/-- In any successful run of the connection loop from an arbitrary entry
role, the recorded sender of the `i`-th exchange alternates starting from
that role, and no more exchanges happen than messages are available. -/
theorem connection_loop_alternation {σ : Type} (L : HandshakeLib σ) :
    ∀ (msgs : List TestMessage) (ini res : σ) (role : Nat)
      (recs : List Nat),
      connection_loop L ini res role msgs = Except.ok recs →
      recs.length ≤ msgs.length ∧
      ∀ i, i < recs.length →
        recs.get? i = some (if i % 2 = 0 then sender_of role
                            else sender_of (next_role role)) := by
  intro msgs
  induction msgs with
  | nil =>
    intro ini res role recs h
    simp only [connection_loop] at h
    injection h with h
    subst h
    simp
  | cons m rest ih =>
    intro ini res role recs h
    rw [connection_loop] at h
    by_cases hsplit : (L.get_action ini = NOISE_ACTION_SPLIT ∧
        L.get_action res = NOISE_ACTION_SPLIT)
    · rw [if_pos hsplit] at h
      injection h with h
      subst h
      simp
    · rw [if_neg hsplit] at h
      by_cases hrole : role = NOISE_ROLE_INITIATOR
      · rw [if_pos hrole] at h
        cases hstep : exchange_step L ini res m with
        | error e => simp only [hstep] at h; exact Except.noConfusion h
        | ok s =>
          simp only [hstep] at h
          cases hrec : connection_loop L s.1 s.2 NOISE_ROLE_RESPONDER rest with
          | error e => simp only [hrec] at h; exact Except.noConfusion h
          | ok recs2 =>
            simp only [hrec] at h
            injection h with h
            subst h
            obtain ⟨hlen, halt⟩ := ih s.1 s.2 NOISE_ROLE_RESPONDER recs2 hrec
            refine ⟨by simpa using Nat.succ_le_succ hlen, ?_⟩
            intro i hi
            cases i with
            | zero =>
              simp [sender_of, hrole]
            | succ j =>
              have hj : j < recs2.length := by simpa using hi
              have hval := halt j hj
              rw [List.get?_cons_succ, hval]
              rcases Nat.mod_two_eq_zero_or_one j with hj2 | hj2 <;>
                simp [sender_of, next_role, hrole, Nat.add_mod, hj2,
                  roles_distinct, roles_distinct2]
      · rw [if_neg hrole] at h
        cases hstep : exchange_step L res ini m with
        | error e => simp only [hstep] at h; exact Except.noConfusion h
        | ok s =>
          simp only [hstep] at h
          cases hrec : connection_loop L s.2 s.1 NOISE_ROLE_INITIATOR rest with
          | error e => simp only [hrec] at h; exact Except.noConfusion h
          | ok recs2 =>
            simp only [hrec] at h
            injection h with h
            subst h
            obtain ⟨hlen, halt⟩ := ih s.2 s.1 NOISE_ROLE_INITIATOR recs2 hrec
            refine ⟨by simpa using Nat.succ_le_succ hlen, ?_⟩
            intro i hi
            cases i with
            | zero =>
              simp [sender_of, hrole]
            | succ j =>
              have hj : j < recs2.length := by simpa using hi
              have hval := halt j hj
              rw [List.get?_cons_succ, hval]
              rcases Nat.mod_two_eq_zero_or_one j with hj2 | hj2 <;>
                simp [sender_of, next_role, hrole, Nat.add_mod, hj2,
                  roles_distinct, roles_distinct2]

/-- C5: the two sides are driven in strict lock-step alternation starting
with the initiator: in any completed run the `i`-th exchange's sender is
the initiator for even `i` and the responder for odd `i`; the loop
performs at most `num_messages` exchanges and stops consuming messages;
it stops immediately when both sides report `NOISE_ACTION_SPLIT`; and at
any iteration whose sender is not at `NOISE_ACTION_WRITE_MESSAGE` or
whose receiver is not at `NOISE_ACTION_READ_MESSAGE` the test aborts with
longjmp value 1. -/
theorem claim5_lockstep {σ : Type} (L : HandshakeLib σ)
    (initiator responder : σ) (msgs : List TestMessage) :
    (∀ recs, test_connection_loop L initiator responder msgs = Except.ok recs →
      recs.length ≤ msgs.length ∧
      ∀ i, i < recs.length →
        recs.get? i = some (if i % 2 = 0 then NOISE_ROLE_INITIATOR
                            else NOISE_ROLE_RESPONDER)) ∧
    (∀ m rest role,
      L.get_action initiator = NOISE_ACTION_SPLIT →
      L.get_action responder = NOISE_ACTION_SPLIT →
      connection_loop L initiator responder role (m :: rest)
        = Except.ok []) ∧
    (∀ m rest role,
      ¬(L.get_action initiator = NOISE_ACTION_SPLIT ∧
        L.get_action responder = NOISE_ACTION_SPLIT) →
      ¬(L.get_action (if role = NOISE_ROLE_INITIATOR then initiator
            else responder) = NOISE_ACTION_WRITE_MESSAGE ∧
        L.get_action (if role = NOISE_ROLE_INITIATOR then responder
            else initiator) = NOISE_ACTION_READ_MESSAGE) →
      connection_loop L initiator responder role (m :: rest)
        = Except.error 1) ∧
    connection_loop L initiator responder NOISE_ROLE_INITIATOR []
      = Except.ok [] := by
  refine ⟨?_, ?_, ?_, ?_⟩
  · intro recs h
    obtain ⟨h1, h2⟩ := connection_loop_alternation L msgs initiator responder
      NOISE_ROLE_INITIATOR recs h
    refine ⟨h1, fun i hi => ?_⟩
    simpa [sender_of, next_role, NOISE_ROLE_INITIATOR, NOISE_ROLE_RESPONDER]
      using h2 i hi
  · intro m rest role h1 h2
    rw [connection_loop, if_pos ⟨h1, h2⟩]
  · intro m rest role hsplit hact
    rw [connection_loop, if_neg hsplit]
    by_cases hrole : role = NOISE_ROLE_INITIATOR
    · simp only [if_pos hrole] at hact ⊢
      rw [exchange_step_action_fail L initiator responder m hact]
    · simp only [if_neg hrole] at hact ⊢
      rw [exchange_step_action_fail L responder initiator m hact]
  · rw [connection_loop]

theorem claim5_witness :
    ([NOISE_ROLE_INITIATOR, NOISE_ROLE_RESPONDER] : List Nat).get? 1
        = some NOISE_ROLE_RESPONDER ∧
    connection_loop split_lib () () NOISE_ROLE_INITIATOR
        [{ payload := [], ciphertext := [] }] = Except.ok [] ∧
    connection_loop demo_lib (1, true) (0, false) NOISE_ROLE_INITIATOR
        [{ payload := [], ciphertext := [] }] = Except.error 1 ∧
    connection_loop demo_lib (0, true) (0, false) NOISE_ROLE_INITIATOR []
      = Except.ok [] := by
  refine ⟨?_, ?_, ?_, ?_⟩
  · have h := ((claim5_lockstep demo_lib (0, true) (0, false)
      [⟨[1], [1]⟩, ⟨[2], [2]⟩]).1
        [NOISE_ROLE_INITIATOR, NOISE_ROLE_RESPONDER] (by rfl)).2 1 (by decide)
    exact h
  · exact (claim5_lockstep split_lib () ()
      ([] : List TestMessage)).2.1 ⟨[], []⟩ [] NOISE_ROLE_INITIATOR rfl rfl
  · exact (claim5_lockstep demo_lib (1, true) (0, false)
      ([] : List TestMessage)).2.2.1 ⟨[], []⟩ [] NOISE_ROLE_INITIATOR
        (by decide) (by decide)
  · exact (claim5_lockstep demo_lib (0, true) (0, false)
      ([] : List TestMessage)).2.2.2

/-- C6: a handshake-message exchange of `test_connection` succeeds exactly
when the library reports `NOISE_ERROR_NONE` on both calls, the produced
ciphertext equals the vector's ciphertext in both length and every byte,
and the payload recovered on the other side equals the vector's payload in
both length and every byte; any violation aborts the test with longjmp
value 1, and on success the loop continues with the two successor
states. -/
theorem claim6_byte_exact {σ : Type} (L : HandshakeLib σ) (send recv : σ)
    (m : TestMessage) :
    (message_exchange L send recv m =
        Except.ok ((L.write_message send m.payload).2.1,
          (L.read_message recv (L.write_message send m.payload).2.2).2.1) ↔
      ((L.write_message send m.payload).1 = NOISE_ERROR_NONE ∧
       (L.write_message send m.payload).2.2.length = m.ciphertext.length ∧
       (L.write_message send m.payload).2.2 = m.ciphertext ∧
       (L.read_message recv (L.write_message send m.payload).2.2).1
          = NOISE_ERROR_NONE ∧
       (L.read_message recv (L.write_message send m.payload).2.2).2.2.length
          = m.payload.length ∧
       (L.read_message recv (L.write_message send m.payload).2.2).2.2
          = m.payload)) ∧
    (∀ out, message_exchange L send recv m = Except.ok out →
      out = ((L.write_message send m.payload).2.1,
        (L.read_message recv (L.write_message send m.payload).2.2).2.1)) ∧
    (∀ e, message_exchange L send recv m = Except.error e → e = 1) := by
  by_cases h1 : (L.write_message send m.payload).1 = NOISE_ERROR_NONE
  · by_cases h2 : (L.write_message send m.payload).2.2 = m.ciphertext
    · by_cases h3 : (L.read_message recv
          (L.write_message send m.payload).2.2).1 = NOISE_ERROR_NONE
      · by_cases h4 : (L.read_message recv
            (L.write_message send m.payload).2.2).2.2 = m.payload
        · have hme : message_exchange L send recv m
              = Except.ok ((L.write_message send m.payload).2.1,
                (L.read_message recv
                  (L.write_message send m.payload).2.2).2.1) := by
            unfold message_exchange
            rw [bind_ok_unit _ _ (by simp [compare, h1]),
              bind_ok_unit _ _ ((compare_blocks_ok _ _).mpr h2),
              bind_ok_unit _ _ (by simp [compare, h3]),
              bind_ok_unit _ _ ((compare_blocks_ok _ _).mpr h4)]
          refine ⟨?_, ?_, ?_⟩
          · exact iff_of_true hme ⟨h1, by rw [h2], h2, h3, by rw [h4], h4⟩
          · intro out hout
            rw [hme] at hout
            injection hout with hout
            exact hout.symm
          · intro e he
            rw [hme] at he
            exact Except.noConfusion he
        · have hme : message_exchange L send recv m = Except.error 1 := by
            unfold message_exchange
            rw [bind_ok_unit _ _ (by simp [compare, h1]),
              bind_ok_unit _ _ ((compare_blocks_ok _ _).mpr h2),
              bind_ok_unit _ _ (by simp [compare, h3])]
            exact bind_err _ _ 1 (by simp [compare_blocks, h4])
          refine ⟨?_, ?_, ?_⟩
          · simp [hme, h4]
          · intro out hout
            rw [hme] at hout
            exact Except.noConfusion hout
          · intro e he
            rw [hme] at he
            injection he with he
            exact he.symm
      · have hme : message_exchange L send recv m = Except.error 1 := by
          unfold message_exchange
          rw [bind_ok_unit _ _ (by simp [compare, h1]),
            bind_ok_unit _ _ ((compare_blocks_ok _ _).mpr h2)]
          exact bind_err _ _ 1 (by simp [compare, h3])
        refine ⟨?_, ?_, ?_⟩
        · simp [hme, h3]
        · intro out hout
          rw [hme] at hout
          exact Except.noConfusion hout
        · intro e he
          rw [hme] at he
          injection he with he
          exact he.symm
    · have hme : message_exchange L send recv m = Except.error 1 := by
        unfold message_exchange
        rw [bind_ok_unit _ _ (by simp [compare, h1])]
        exact bind_err _ _ 1 (by simp [compare_blocks, h2])
      refine ⟨?_, ?_, ?_⟩
      · simp [hme, h2]
      · intro out hout
        rw [hme] at hout
        exact Except.noConfusion hout
      · intro e he
        rw [hme] at he
        injection he with he
        exact he.symm
  · have hme : message_exchange L send recv m = Except.error 1 := by
      unfold message_exchange
      exact bind_err _ _ 1 (by simp [compare, h1])
    refine ⟨?_, ?_, ?_⟩
    · simp [hme, h1]
    · intro out hout
      rw [hme] at hout
      exact Except.noConfusion hout
    · intro e he
      rw [hme] at he
      injection he with he
      exact he.symm

theorem claim6_witness :
    message_exchange demo_lib (0, true) (0, false)
      { payload := [1], ciphertext := [1] }
      = Except.ok ((1, true), (1, false)) :=
  (claim6_byte_exact demo_lib (0, true) (0, false)
    { payload := [1], ciphertext := [1] }).1.mpr
    ⟨rfl, rfl, rfl, rfl, rfl, rfl⟩

/-- Two-step structural induction on character lists, matching the pair
recursion of the decode loop. -/
theorem hex_pairs_induction (motive : List Nat → Prop) (h0 : motive [])
    (h1 : ∀ c, motive [c])
    (h2 : ∀ c1 c2 rest, motive rest → motive (c1 :: c2 :: rest)) :
    ∀ l, motive l
  | [] => h0
  | [c] => h1 c
  | c1 :: c2 :: rest => h2 c1 c2 rest (hex_pairs_induction motive h0 h1 h2 rest)

/-- The first `2 * (L / 2)` characters of a two-or-more list are the first
two plus the first `2 * ((L - 2) / 2)` of the tail. -/
theorem take_even_cons (c1 c2 : Nat) (rest : List Nat) :
    (c1 :: c2 :: rest).take (2 * ((c1 :: c2 :: rest).length / 2))
      = c1 :: c2 :: rest.take (2 * (rest.length / 2)) := by
  have h : 2 * ((c1 :: c2 :: rest).length / 2)
      = 2 * (rest.length / 2) + 1 + 1 := by
    simp only [List.length_cons]
    omega
  rw [h, List.take_succ_cons, List.take_succ_cons]

/-- A successful decode yields `⌊L/2⌋` bytes, byte `i` being
`16 * d(2i) + d(2i+1)`. -/
theorem expect_binary_loop_bytes :
    ∀ hex bs, expect_binary_loop hex = some bs →
      bs.length = hex.length / 2 ∧
      ∀ i, i < bs.length →
        bs.get? i = some ((from_hex_digit (hex.getD (2 * i) 0) * 16 +
          from_hex_digit (hex.getD (2 * i + 1) 0)).toNat) := by
  intro hex
  induction hex using hex_pairs_induction with
  | h0 =>
    intro bs h
    simp only [expect_binary_loop] at h
    injection h with h
    subst h
    exact ⟨rfl, fun i hi => absurd hi (by simp)⟩
  | h1 c =>
    intro bs h
    simp only [expect_binary_loop] at h
    injection h with h
    subst h
    exact ⟨by simp, fun i hi => absurd hi (by simp)⟩
  | h2 c1 c2 rest ih =>
    intro bs h
    simp only [expect_binary_loop] at h
    by_cases hd : from_hex_digit c1 < 0 ∨ from_hex_digit c2 < 0
    · rw [if_pos hd] at h
      exact Option.noConfusion h
    · rw [if_neg hd] at h
      cases hrest : expect_binary_loop rest with
      | none => rw [hrest] at h; exact Option.noConfusion h
      | some bs2 =>
        rw [hrest] at h
        injection h with h
        subst h
        obtain ⟨hlen, hidx⟩ := ih bs2 hrest
        constructor
        · simp only [List.length_cons, hlen]
          omega
        · intro i hi
          cases i with
          | zero =>
            simp
          | succ j =>
            have hj : j < bs2.length := by simpa using hi
            have hval := hidx j hj
            rw [List.get?_cons_succ, hval]
            have e1 : 2 * (j + 1) = 2 * j + 1 + 1 := by ring
            rw [e1]
            simp only [List.getD_cons_succ]

/-- When every one of the first `2 * (L / 2)` characters is a hex digit
the decode succeeds. -/
theorem expect_binary_loop_total :
    ∀ hex, (∀ c ∈ hex.take (2 * (hex.length / 2)), 0 ≤ from_hex_digit c) →
      (expect_binary_loop hex).isSome = true := by
  intro hex
  induction hex using hex_pairs_induction with
  | h0 => intro _; rfl
  | h1 c => intro _; rfl
  | h2 c1 c2 rest ih =>
    intro hall
    rw [take_even_cons] at hall
    have hc1 : 0 ≤ from_hex_digit c1 := hall c1 (by simp)
    have hc2 : 0 ≤ from_hex_digit c2 := hall c2 (by simp)
    have hd : ¬(from_hex_digit c1 < 0 ∨ from_hex_digit c2 < 0) := by omega
    have hrest : ∀ c ∈ rest.take (2 * (rest.length / 2)),
        0 ≤ from_hex_digit c := by
      intro c hc
      exact hall c (by simp [hc])
    have hih := ih hrest
    simp only [expect_binary_loop, if_neg hd]
    cases hsome : expect_binary_loop rest with
    | none => rw [hsome] at hih; exact absurd hih (by simp)
    | some bs => simp [hsome]

/-- A non-hex character among the first `2 * (L / 2)` makes the decode
fail. -/
theorem expect_binary_loop_bad :
    ∀ hex c, c ∈ hex.take (2 * (hex.length / 2)) → from_hex_digit c < 0 →
      expect_binary_loop hex = none := by
  intro hex
  induction hex using hex_pairs_induction with
  | h0 =>
    intro c hc _
    simp at hc
  | h1 c0 =>
    intro c hc _
    rw [show 2 * (([c0] : List Nat).length / 2) = 0 by simp] at hc
    simp at hc
  | h2 c1 c2 rest ih =>
    intro c hc hneg
    rw [take_even_cons] at hc
    simp only [List.mem_cons] at hc
    by_cases hd : from_hex_digit c1 < 0 ∨ from_hex_digit c2 < 0
    · simp [expect_binary_loop, hd]
    · rcases hc with rfl | rfl | hc
      · exact absurd (Or.inl hneg) hd
      · exact absurd (Or.inr hneg) hd
      · have hnone := ih c hc hneg
        simp [expect_binary_loop, hd, hnone]

/-- The decode never looks past the first `2 * (L / 2)` characters: a
trailing odd character is silently ignored. -/
theorem expect_binary_loop_take :
    ∀ hex, expect_binary_loop hex
      = expect_binary_loop (hex.take (2 * (hex.length / 2))) := by
  intro hex
  induction hex using hex_pairs_induction with
  | h0 => rfl
  | h1 c =>
    have hlen1 : 2 * (([c] : List Nat).length / 2) = 0 := by simp
    rw [hlen1]
    rfl
  | h2 c1 c2 rest ih =>
    rw [take_even_cons]
    by_cases hd : from_hex_digit c1 < 0 ∨ from_hex_digit c2 < 0
    · simp [expect_binary_loop, hd]
    · simp only [expect_binary_loop, if_neg hd]
      rw [← ih]

/-- C9: `expect_binary_field` decodes a string of length `L` into
`⌊L/2⌋` bytes, byte `i` being `16 * d(2i) + d(2i+1)` with `d` the
`from_hex_digit` map (`0`-`9`, `A`-`F`, `a`-`f`); when all of the first
`2 * ⌊L/2⌋` characters are hex digits the decode succeeds; when any of
them is not, the JSON error is raised and the function returns size 0;
and an odd trailing character is ignored rather than rejected. -/
theorem claim9_hex_decode :
    (∀ hex bs, expect_binary_loop hex = some bs →
      bs.length = hex.length / 2 ∧
      ∀ i, i < bs.length →
        bs.get? i = some ((from_hex_digit (hex.getD (2 * i) 0) * 16 +
          from_hex_digit (hex.getD (2 * i + 1) 0)).toNat)) ∧
    (∀ hex, (∀ c ∈ hex.take (2 * (hex.length / 2)), 0 ≤ from_hex_digit c) →
      (expect_binary_loop hex).isSome = true) ∧
    (∀ hex c, c ∈ hex.take (2 * (hex.length / 2)) → from_hex_digit c < 0 →
      expect_binary_loop hex = none ∧ expect_binary_field hex = (0, none)) ∧
    (∀ hex, expect_binary_loop hex
      = expect_binary_loop (hex.take (2 * (hex.length / 2)))) := by
  refine ⟨expect_binary_loop_bytes, expect_binary_loop_total, ?_,
    expect_binary_loop_take⟩
  intro hex c hc hneg
  have hnone := expect_binary_loop_bad hex c hc hneg
  exact ⟨hnone, by unfold expect_binary_field; rw [hnone]⟩

theorem claim9_witness :
    ([(65 : Nat)] : List Nat).get? 0
        = some ((from_hex_digit (([52, 49] : List Nat).getD 0 0) * 16 +
            from_hex_digit (([52, 49] : List Nat).getD 1 0)).toNat) ∧
    (expect_binary_loop [52, 49]).isSome = true ∧
    expect_binary_field [52, 122] = (0, none) ∧
    expect_binary_loop [52, 49, 97]
      = expect_binary_loop (([52, 49, 97] : List Nat).take
          (2 * (([52, 49, 97] : List Nat).length / 2))) := by
  refine ⟨?_, ?_, ?_, ?_⟩
  · have h := (claim9_hex_decode.1 [52, 49] [65] (by decide)).2 0 (by decide)
    simpa using h
  · exact claim9_hex_decode.2.1 [52, 49] (by decide)
  · exact (claim9_hex_decode.2.2.1 [52, 122] 122 (by decide) (by decide)).2
  · exact claim9_hex_decode.2.2.2 [52, 49, 97]

/-- C10: `process_test_vectors` runs at most 128 vectors from one input
file: it processes `min 128 n` of the `n` vector objects, never more than
128, and the closing tokens of the file are validated exactly when fewer
than 128 vectors were present (so at 128 or more, the jump past the
remaining input skips that validation). -/
theorem claim10_at_most_128 (items : List VectorItem) :
    (process_test_vectors items).1 = min 128 items.length ∧
    (process_test_vectors items).1 ≤ 128 ∧
    ((process_test_vectors items).2.2 = true ↔ items.length < 128) := by
  obtain ⟨h1, h2⟩ := process_vectors_loop_count items 128 true (by omega)
  unfold process_test_vectors
  refine ⟨h1, ?_, h2⟩
  rw [h1]
  omega

end TestVectorDriver

end NoiseC
